import Mathlib

/-!
Verification of the latex-rs rendering library.

The document object model of `src/` (src/text.rs, src/commands.rs,
src/section.rs, src/enviroment.rs, src/equations.rs, src/lists.rs,
src/document.rs, src/lib.rs) is embedded shallowly.

Rendering in the source is the `Writable::write_to` method: a sequence of
`write!` / `writeln!` calls against an `std::io::Write` sink, each followed
by `?` (early return on the sink's error).  Two layers model this:

* `pieces` functions return, for every node, the list of strings passed to
  the successive write calls, in source order (one list entry per
  `write!` / `writeln!` invocation);
* `writeToM` functions mirror the control flow of the Rust code over an
  abstract sink `emit : String → σ → Except ε σ`, where `mseq` is the
  sequencing of two fallible statements (`a?; b`) and each write call is an
  application of `emit`.

The theorem `element_writeToM_eq` proves the two layers agree: running the
monadic traversal is the same as emitting the pieces in order with early
abort, which is what the error-propagation claim is settled with.
-/

namespace LatexRs


/-- An abstract output sink: a write takes the string and the sink state and
either returns the new state or fails with an error of type ε
(modelling `std::io::Error`). -/
abbrev Emit (σ ε : Type) : Type := String → σ → Except ε σ

/-- A fallible statement over the sink state, the shape of one
`write_to` body. -/
abbrev EmitM (σ ε : Type) : Type := σ → Except ε σ

/-- The statement that does nothing and succeeds (Rust's final `Ok(())`). -/
def okM {σ ε : Type} : EmitM σ ε := fun st => .ok st

/-- Sequencing of two fallible statements: `f?; g` - if `f` fails its error
is returned and `g` is never run. -/
def mseq {σ ε : Type} (f g : EmitM σ ε) : EmitM σ ε := fun st =>
  match f st with
  | .error e => .error e
  | .ok st' => g st'

/-- Emit a list of strings in order, aborting at the first failing write. -/
def foldEmit {σ ε : Type} (emit : Emit σ ε) : List String → EmitM σ ε
  | [], st => .ok st
  | p :: ps, st =>
    match emit p st with
    | .error e => .error e
    | .ok st' => foldEmit emit ps st'

/-- Concatenation of a list of strings (the text a successful render
produces, given the list of written pieces). -/
def strJoin : List String → String
  | [] => ""
  | s :: ss => s ++ strJoin ss

/-! ## Inline text (src/text.rs) -/

/-- `TextElement` enum (src/text.rs lines 88-99).  The `Link` variant holds a
pair documented in the source as `(description, link)`. -/
inductive TextElement where
  | Plain (s : String)
  | Bold (e : TextElement)
  | Italic (e : TextElement)
  | Link (pair : String × String)
  | InlineMath (s : String)
  deriving Repr, DecidableEq

/-- The `Display` impl for `TextElement` (src/text.rs lines 147-161); used by
`write!` when a nested element or a `Text` field is formatted with `{}`. -/
def TextElement.display : TextElement → String
  | .Plain s => s
  | .Link pair => "\\href\x7b" ++ pair.1 ++ "\x7d\x7b" ++ pair.2 ++ "\x7d"
  | .InlineMath s => "$" ++ s ++ "$"
  | .Bold e => "\\textbf\x7b" ++ e.display ++ "\x7d"
  | .Italic e => "\\textit\x7b" ++ e.display ++ "\x7d"

/-- `TextElement::write_to` (src/text.rs lines 131-145): each variant is a
single `write!` call. -/
def TextElement.pieces : TextElement → List String
  | .Plain s => [s]
  | .Link pair => ["\\href\x7b" ++ pair.1 ++ "\x7d\x7b" ++ pair.2 ++ "\x7d"]
  | .InlineMath s => ["$" ++ s ++ "$"]
  | .Bold e => ["\\textbf\x7b" ++ e.display ++ "\x7d"]
  | .Italic e => ["\\textit\x7b" ++ e.display ++ "\x7d"]

/-- `Text` struct (src/text.rs lines 33-37): an ordered run of
`TextElement`s. -/
structure Text where
  elements : List TextElement
  deriving Repr, DecidableEq

/-- `Text::from(&str)` (src/text.rs lines 75-81): one `Plain` element. -/
def Text.fromStr (s : String) : Text := ⟨[TextElement.Plain s]⟩

/-- `Text::write_to` (src/text.rs lines 65-73): writes each element in
order. -/
def Text.pieces (t : Text) : List String :=
  t.elements.flatMap TextElement.pieces

/-- The `Display` impl for `Text` (src/text.rs lines 163-179). -/
def Text.display (t : Text) : String :=
  strJoin (t.elements.map TextElement.display)

def TextElement.render (te : TextElement) : String := strJoin te.pieces

def Text.render (t : Text) : String := strJoin t.pieces

/-! ## One-line commands (src/commands.rs) -/

/-- `Label` struct from `create_commands!` (src/commands.rs line 150):
fields `\x7b label: String \x7d`, formatter `{label}`. -/
structure Label where
  label : String
  deriving Repr, DecidableEq

/-- `Ref` struct (src/commands.rs line 151): field `text`, formatter
`{text}`. -/
structure Ref where
  text : String
  deriving Repr, DecidableEq

/-- `Bibitem` struct (src/commands.rs line 152): fields `text: Text,
cite: String` in that declared order, formatter `{cite}text`. -/
structure Bibitem where
  text : Text
  cite : String
  deriving Repr, DecidableEq

/-- `Bibliographystyle` struct (src/commands.rs line 153): field `style`,
formatter `{style}`. -/
structure Bibliographystyle where
  style : String
  deriving Repr, DecidableEq

/-- `Bibliography` struct (src/commands.rs line 154): field `file`,
formatter `{file}`. -/
structure Bibliography where
  file : String
  deriving Repr, DecidableEq

/-- `Cite` struct (src/commands.rs line 155): fields `reference: String,
subcit: Option<Text>` in that declared order, formatter
`[subcit]{reference}`. -/
structure Cite where
  reference : String
  subcit : Option Text
  deriving Repr, DecidableEq

/-- `Framebox` struct (src/commands.rs line 156): fields `text: Text,
size: Option<String>, pos: Option<String>` in that declared order,
formatter `[size][pos]{text}`. -/
structure Framebox where
  text : Text
  size : Option String
  pos : Option String
  deriving Repr, DecidableEq

/-- The macro's `@format [param]` rule (src/commands.rs lines 17-22): an
optional field emits one `[value]` write only when the value is present. -/
def optBracketPieces : Option String → List String
  | some value => ["[" ++ value ++ "]"]
  | none => []

/-- `Label::write_to` generated by `create_commands!` (src/commands.rs lines
125-136): `\label` then `{label}` then a line break. -/
def Label.pieces (c : Label) : List String :=
  ["\\label"] ++ ["\x7b" ++ c.label ++ "\x7d"] ++ ["\n"]

/-- `Ref::write_to`: `\ref` then `{text}` then a line break. -/
def Ref.pieces (c : Ref) : List String :=
  ["\\ref"] ++ ["\x7b" ++ c.text ++ "\x7d"] ++ ["\n"]

/-- `Bibitem::write_to`: `\bibitem` then `{cite}` then the bare `text` field
(formatted via `Text`'s `Display`) then a line break - the formatter order
`{cite}text`, not the struct's field order. -/
def Bibitem.pieces (c : Bibitem) : List String :=
  ["\\bibitem"] ++ ["\x7b" ++ c.cite ++ "\x7d"] ++ [c.text.display] ++ ["\n"]

/-- `Bibliographystyle::write_to`: `\bibliographystyle` then `{style}` then a
line break. -/
def Bibliographystyle.pieces (c : Bibliographystyle) : List String :=
  ["\\bibliographystyle"] ++ ["\x7b" ++ c.style ++ "\x7d"] ++ ["\n"]

/-- `Bibliography::write_to`: `\bibliography` then `{file}` then a line
break. -/
def Bibliography.pieces (c : Bibliography) : List String :=
  ["\\bibliography"] ++ ["\x7b" ++ c.file ++ "\x7d"] ++ ["\n"]

/-- `Cite::write_to`: `\cite` then optional `[subcit]` then `{reference}`
then a line break - the formatter order `[subcit]{reference}`. -/
def Cite.pieces (c : Cite) : List String :=
  ["\\cite"]
  ++ (match c.subcit with
      | some value => ["[" ++ value.display ++ "]"]
      | none => [])
  ++ ["\x7b" ++ c.reference ++ "\x7d"] ++ ["\n"]

/-- `Framebox::write_to`: `\framebox` then optional `[size]` then optional
`[pos]` then `{text}` then a line break - the formatter order
`[size][pos]{text}`. -/
def Framebox.pieces (c : Framebox) : List String :=
  ["\\framebox"]
  ++ optBracketPieces c.size
  ++ optBracketPieces c.pos
  ++ ["\x7b" ++ c.text.display ++ "\x7d"] ++ ["\n"]

/-- `Command` enum (src/commands.rs lines 67-76 as instantiated at lines
149-163): seven parameterized commands plus six bare one-line commands. -/
inductive Command where
  | Label (c : Label)
  | Ref (c : Ref)
  | Bibitem (c : Bibitem)
  | Bibliographystyle (c : Bibliographystyle)
  | Bibliography (c : Bibliography)
  | Cite (c : Cite)
  | Framebox (c : Framebox)
  | TableOfContents
  | TitlePage
  | ClearPage
  | BigSkip
  | NewPage
  | Appendix
  deriving Repr, DecidableEq

/-- `Command::write_to` (src/commands.rs lines 81-90): parameterized
variants delegate to their struct; bare variants are one
`write!(writer, "\\\x7b\x7d\n", keyword)` call. -/
def Command.pieces : Command → List String
  | .Label c => c.pieces
  | .Ref c => c.pieces
  | .Bibitem c => c.pieces
  | .Bibliographystyle c => c.pieces
  | .Bibliography c => c.pieces
  | .Cite c => c.pieces
  | .Framebox c => c.pieces
  | .TableOfContents => ["\\tableofcontents\n"]
  | .TitlePage => ["\\maketitle\n"]
  | .ClearPage => ["\\clearpage\n"]
  | .BigSkip => ["\\bigskip\n"]
  | .NewPage => ["\\newpage\n"]
  | .Appendix => ["\\appendix\n"]

def Label.render (c : Label) : String := strJoin c.pieces
def Ref.render (c : Ref) : String := strJoin c.pieces
def Bibitem.render (c : Bibitem) : String := strJoin c.pieces
def Bibliographystyle.render (c : Bibliographystyle) : String := strJoin c.pieces
def Bibliography.render (c : Bibliography) : String := strJoin c.pieces
def Cite.render (c : Cite) : String := strJoin c.pieces
def Framebox.render (c : Framebox) : String := strJoin c.pieces
def Command.render (c : Command) : String := strJoin c.pieces

/-! ## Equations (src/equations.rs) -/

/-- `AlignEquation` struct (src/equations.rs lines 124-135). -/
structure AlignEquation where
  text : String
  label : Option String
  numbered : Bool
  deriving Repr, DecidableEq

/-- `AlignEquation::new` (src/equations.rs lines 138-145). -/
def AlignEquation.new (src : String) : AlignEquation :=
  ⟨src, none, true⟩

/-- `AlignEquation::with_label` (src/equations.rs lines 147-152). -/
def AlignEquation.with_label (label text : String) : AlignEquation :=
  ⟨text, some label, true⟩

/-- `Align` struct (src/equations.rs lines 188-202): rows, an optional
shared label, and the numbered flag. -/
structure Align where
  items : List AlignEquation
  label : Option String
  numbered : Bool
  deriving Repr, DecidableEq

/-- `Align::new` (src/equations.rs lines 214-221). -/
def Align.new : Align := ⟨[], none, true⟩

/-- `Align::with_label` (src/equations.rs lines 204-212): empty rows, the
given shared label, numbered. -/
def Align.with_label (label : String) : Align := ⟨[], some label, true⟩

/-- `write_equation` (src/equations.rs lines 235-253): optional
`\nonumber` line, the text plus a space, an optional `\label{...} `, and
the row terminator `\\` with a line break. -/
def writeEquationPieces (item : AlignEquation) (numbered : Bool) : List String :=
  (if !item.numbered && numbered then ["\\nonumber\n"] else [])
  ++ [item.text ++ " "]
  ++ (match item.label with
      | some label => ["\\label\x7b" ++ label ++ "\x7d "]
      | none => [])
  ++ ["\\\\\n"]

/-- `Align::write_to` (src/equations.rs lines 255-275): begin line for
`align` or `align*`, each row via `write_equation`, end line.  The `Align`'s
own `label` field is not read. -/
def Align.pieces (a : Align) : List String :=
  ["\\begin\x7balign" ++ (if a.numbered then "" else "*") ++ "\x7d\n"]
  ++ a.items.flatMap (fun e => writeEquationPieces e a.numbered)
  ++ ["\\end\x7balign" ++ (if a.numbered then "" else "*") ++ "\x7d\n"]

def Align.render (a : Align) : String := strJoin a.pieces

/-! ## Lists (src/lists.rs) -/

/-- `ListKind` enum (src/lists.rs lines 24-30). -/
inductive ListKind where
  | Enumerate
  | Itemize
  deriving Repr, DecidableEq

/-- `ListKind::environment_name` (src/lists.rs lines 33-40). -/
def ListKind.environment_name : ListKind → String
  | .Enumerate => "enumerate"
  | .Itemize => "itemize"

/-! ## The element tree (src/document.rs, src/section.rs, src/enviroment.rs,
src/lists.rs) -/

mutual

/-- `Element` enum (src/document.rs lines 301-361).  The seven sectioning
variants each wrap one of the structurally identical structs generated by
`create_section_type!`, modelled by the single `SectionBlock` type.  The
hidden reserved variant `_Other`, whose `write_to` is `unreachable!()` and
which no API constructs, is not modelled. -/
inductive Element where
  | Part (s : SectionBlock)
  | Chapter (s : SectionBlock)
  | Section (s : SectionBlock)
  | Subsection (s : SectionBlock)
  | Subsubsection (s : SectionBlock)
  | Paragraph (s : SectionBlock)
  | Subparagraph (s : SectionBlock)
  | Text (t : Text)
  | Container (c : ContainerBlock)
  | Command (c : Command)
  | Align (a : Align)
  | Environment (env : EnvironmentBlock)
  | UserDefined (s : String)
  | List (l : ListBlock)
  | Input (s : String)

/-- The struct generated for each sectioning type by `create_section_type!`
(src/section.rs lines 72-84): name, children, the keyword string
(`sectioning_name`), optional toc title, numbered flag. -/
inductive SectionBlock where
  | mk (name : Text) (elements : List Element) (sectioningName : String)
      (toctitle : Option Text) (numbered : Bool)

/-- `Container` struct (src/section.rs lines 174-178). -/
inductive ContainerBlock where
  | mk (elements : List Element)

/-- `Environment` struct (src/enviroment.rs lines 85-109). -/
inductive EnvironmentBlock where
  | mk (params : List String) (optionalParams : List String)
      (elements : List Element) (envingName : String) (numbered : Bool)

/-- `List` struct (src/lists.rs lines 66-71). -/
inductive ListBlock where
  | mk (kind : ListKind) (items : List ItemBlock)

/-- `Item` struct (src/lists.rs line 14): a wrapper around a `Container`. -/
inductive ItemBlock where
  | mk (container : ContainerBlock)

end

def SectionBlock.name : SectionBlock → Text
  | .mk n _ _ _ _ => n

def SectionBlock.elements : SectionBlock → List Element
  | .mk _ es _ _ _ => es

def SectionBlock.sectioningName : SectionBlock → String
  | .mk _ _ sn _ _ => sn

def SectionBlock.toctitle : SectionBlock → Option Text
  | .mk _ _ _ tt _ => tt

def SectionBlock.numbered : SectionBlock → Bool
  | .mk _ _ _ _ nb => nb

def ContainerBlock.elements : ContainerBlock → List Element
  | .mk es => es

def EnvironmentBlock.params : EnvironmentBlock → List String
  | .mk ps _ _ _ _ => ps

def EnvironmentBlock.optionalParams : EnvironmentBlock → List String
  | .mk _ ops _ _ _ => ops

def EnvironmentBlock.elements : EnvironmentBlock → List Element
  | .mk _ _ es _ _ => es

def EnvironmentBlock.envingName : EnvironmentBlock → String
  | .mk _ _ _ n _ => n

def ListBlock.kind : ListBlock → ListKind
  | .mk k _ => k

def ListBlock.items : ListBlock → List ItemBlock
  | .mk _ its => its

def ItemBlock.container : ItemBlock → ContainerBlock
  | .mk c => c

/-- The macro's `new` (src/section.rs lines 87-96) with the keyword the
macro instantiation supplies: named section, no children, no toc title,
numbered. -/
def SectionBlock.new (sectioningName : String) (name : String) : SectionBlock :=
  .mk (Text.fromStr name) [] sectioningName none true

/-- The heading writes of `visit_sectioning_element` (src/section.rs lines
31-50): the keyword declaration with either the bracketed toc title (only
when numbered) or the starred form, then the name, then the closing brace
with a line break. -/
def SectionBlock.headingPieces (s : SectionBlock) : List String :=
  (match s.numbered with
   | true =>
     ["\\" ++ s.sectioningName]
     ++ (match s.toctitle with
         | some toctitle => ["["] ++ toctitle.pieces ++ ["]\x7b"]
         | none => ["\x7b"])
   | false => ["\\" ++ s.sectioningName ++ "*\x7b"])
  ++ s.name.pieces ++ ["\x7d\n"]

mutual

/-- `Element::write_to` (src/document.rs lines 425-451): dispatch on the
variant; `UserDefined` and `Input` are single `writeln!` calls. -/
def Element.pieces : Element → List String
  | .Part s => SectionBlock.pieces s
  | .Chapter s => SectionBlock.pieces s
  | .Section s => SectionBlock.pieces s
  | .Subsection s => SectionBlock.pieces s
  | .Subsubsection s => SectionBlock.pieces s
  | .Paragraph s => SectionBlock.pieces s
  | .Subparagraph s => SectionBlock.pieces s
  | .Text t => t.pieces
  | .Container c => ContainerBlock.pieces c
  | .Command c => c.pieces
  | .Align a => a.pieces
  | .Environment env => EnvironmentBlock.pieces env
  | .UserDefined s => [s ++ "\n"]
  | .List l => ListBlock.pieces l
  | .Input s => ["\\input\x7b" ++ s ++ "\x7d\n"]

/-- `visit_sectioning_element` (src/section.rs lines 27-61): the heading,
then every child element each followed by one `writeln!(writer)` (a single
line-break write). -/
def SectionBlock.pieces : SectionBlock → List String
  | s@(.mk _ elements _ _ _) => s.headingPieces ++ elementsLinePieces elements

/-- `Container::write_to` (src/section.rs lines 208-216): children in order
with nothing added. -/
def ContainerBlock.pieces : ContainerBlock → List String
  | .mk elements => elementsPieces elements

/-- `Environment::write_to` (src/enviroment.rs lines 176-196): the begin
write, one `{param}` write per mandatory parameter, one bracket group of the
comma-joined optional parameters when any exist, a line break, each child
followed by a line break, and the end line. -/
def EnvironmentBlock.pieces : EnvironmentBlock → List String
  | .mk params optionalParams elements envingName _ =>
    ["\\begin\x7b" ++ envingName ++ "\x7d"]
    ++ params.map (fun item => "\x7b" ++ item ++ "\x7d")
    ++ (if optionalParams.isEmpty then []
        else ["[" ++ String.intercalate "," optionalParams ++ "]"])
    ++ ["\n"]
    ++ elementsLinePieces elements
    ++ ["\\end\x7b" ++ envingName ++ "\x7d\n"]

/-- `List::write_to` (src/lists.rs lines 121-137): begin line, each item as
`\item ` followed by its container's render and a line break, end line. -/
def ListBlock.pieces : ListBlock → List String
  | .mk kind items =>
    ["\\begin\x7b" ++ kind.environment_name ++ "\x7d\n"]
    ++ itemsPieces items
    ++ ["\\end\x7b" ++ kind.environment_name ++ "\x7d\n"]

/-- The item loop of `List::write_to`. -/
def itemsPieces : List ItemBlock → List String
  | [] => []
  | .mk c :: rest => ["\\item "] ++ ContainerBlock.pieces c ++ ["\n"] ++ itemsPieces rest

/-- A loop rendering elements back to back (`Document`, `Container`). -/
def elementsPieces : List Element → List String
  | [] => []
  | e :: es => Element.pieces e ++ elementsPieces es

/-- A loop rendering each element followed by one `writeln!(writer)`
(`visit_sectioning_element`, `Environment::write_to`). -/
def elementsLinePieces : List Element → List String
  | [] => []
  | e :: es => Element.pieces e ++ ["\n"] ++ elementsLinePieces es

end

def Element.render (e : Element) : String := strJoin e.pieces

def SectionBlock.render (s : SectionBlock) : String := strJoin s.pieces

def SectionBlock.headingRender (s : SectionBlock) : String := strJoin s.headingPieces

def ContainerBlock.render (c : ContainerBlock) : String := strJoin c.pieces

def EnvironmentBlock.render (env : EnvironmentBlock) : String := strJoin env.pieces

def ListBlock.render (l : ListBlock) : String := strJoin l.pieces

/-! ## Preamble and Document (src/document.rs) -/

/-- `PreambleElement` enum (src/document.rs lines 150-165). -/
inductive PreambleElement where
  | UsePackage (package : String) (argument : Option String)
  | NewCommand (name : String) (args_num : Option Nat)
      (default_arg : Option String) (definition : String)
  | UserDefined (s : String)
  deriving Repr, DecidableEq

/-- The per-item writes of `Preamble::write_to` (src/document.rs lines
247-276). -/
def PreambleElement.pieces : PreambleElement → List String
  | .UsePackage pkg none => ["\\usepackage\x7b" ++ pkg ++ "\x7d\n"]
  | .UsePackage pkg (some arg) => ["\\usepackage[" ++ arg ++ "]\x7b" ++ pkg ++ "\x7d\n"]
  | .NewCommand name args_num default_arg definition =>
    ["\\newcommand\x7b\\" ++ name ++ "\x7d"]
    ++ (match args_num with
        | some num => ["[" ++ toString num ++ "]"]
        | none => [])
    ++ (match default_arg with
        | some arg => ["[" ++ arg ++ "]"]
        | none => [])
    ++ ["\x7b\n"] ++ [definition ++ "\n"] ++ ["\x7d\n"]
  | .UserDefined s => [s ++ "\n"]

def PreambleElement.render (p : PreambleElement) : String := strJoin p.pieces

/-- `Preamble` struct (src/document.rs lines 168-175). -/
structure Preamble where
  author : Option String
  title : Option String
  contents : List PreambleElement
  deriving Repr, DecidableEq

/-- `Preamble::write_to` (src/document.rs lines 245-291): each content item,
then one lone line break exactly when the contents are non-empty and a
title or an author is set (`!self.is_empty() && (title.is_some() ||
author.is_some())`), then the title line if set, then the author line if
set. -/
def Preamble.pieces (p : Preamble) : List String :=
  p.contents.flatMap PreambleElement.pieces
  ++ (if !p.contents.isEmpty && (p.title.isSome || p.author.isSome)
      then ["\n"] else [])
  ++ (match p.title with
      | some title => ["\\title\x7b" ++ title ++ "\x7d\n"]
      | none => [])
  ++ (match p.author with
      | some author => ["\\author\x7b" ++ author ++ "\x7d\n"]
      | none => [])

def Preamble.render (p : Preamble) : String := strJoin p.pieces

/-- `DocumentClass` enum (src/document.rs lines 78-86). -/
inductive DocumentClass where
  | Article
  | Book
  | Report
  | Part
  | Other (s : String)
  deriving Repr, DecidableEq

/-- The `Display` impl for `DocumentClass` (src/document.rs lines
94-104). -/
def DocumentClass.display : DocumentClass → String
  | .Article => "article"
  | .Book => "book"
  | .Report => "report"
  | .Part => ""
  | .Other s => s

/-- `Document` struct (src/document.rs lines 17-27). -/
structure Document where
  docClass : DocumentClass
  preamble : Preamble
  arguments : List String
  elements : List Element

/-- `Document::write_to` (src/document.rs lines 114-145): for the `Part`
class only the children; otherwise the `\documentclass` line with the
comma-joined arguments and the class name, the preamble, the
`\begin{document}` line, the children, and the `\end{document}` line. -/
def Document.pieces (d : Document) : List String :=
  match d.docClass with
  | .Part => elementsPieces d.elements
  | _ =>
    ["\\documentclass[" ++ String.intercalate "," d.arguments ++ "]\x7b"
       ++ d.docClass.display ++ "\x7d\n"]
    ++ d.preamble.pieces
    ++ ["\\begin\x7bdocument\x7d\n"]
    ++ elementsPieces d.elements
    ++ ["\\end\x7bdocument\x7d\n"]

def Document.render (d : Document) : String := strJoin d.pieces

/-- `List::new` (src/lists.rs lines 75-80). -/
def ListBlock.new (kind : ListKind) : ListBlock := .mk kind []

/-- `List::push_text` (src/lists.rs lines 104-113): appends an item holding
a container with one `Element::Text`. -/
def ListBlock.push_text (l : ListBlock) (item : String) : ListBlock :=
  .mk l.kind (l.items ++ [.mk (.mk [Element.Text (Text.fromStr item)])])

/-! ## The monadic rendering layer: `write_to` over an abstract sink -/

/-- `TextElement::write_to` over an abstract sink: one write per variant. -/
def TextElement.writeToM {σ ε : Type} (emit : Emit σ ε) : TextElement → EmitM σ ε
  | .Plain s => emit s
  | .Link pair => emit ("\\href\x7b" ++ pair.1 ++ "\x7d\x7b" ++ pair.2 ++ "\x7d")
  | .InlineMath s => emit ("$" ++ s ++ "$")
  | .Bold e => emit ("\\textbf\x7b" ++ e.display ++ "\x7d")
  | .Italic e => emit ("\\textit\x7b" ++ e.display ++ "\x7d")

/-- The element loop of `Text::write_to`. -/
def textListWriteTo {σ ε : Type} (emit : Emit σ ε) : List TextElement → EmitM σ ε
  | [] => okM
  | t :: ts => mseq (TextElement.writeToM emit t) (textListWriteTo emit ts)

/-- `Text::write_to` over an abstract sink. -/
def Text.writeToM {σ ε : Type} (emit : Emit σ ε) (t : Text) : EmitM σ ε :=
  textListWriteTo emit t.elements

/-- The macro's `@format [param]` unit over an abstract sink. -/
def optBracketM {σ ε : Type} (emit : Emit σ ε) : Option String → EmitM σ ε
  | some value => emit ("[" ++ value ++ "]")
  | none => okM

def Label.writeToM {σ ε : Type} (emit : Emit σ ε) (c : Label) : EmitM σ ε :=
  mseq (emit "\\label") (mseq (emit ("\x7b" ++ c.label ++ "\x7d")) (emit "\n"))

def Ref.writeToM {σ ε : Type} (emit : Emit σ ε) (c : Ref) : EmitM σ ε :=
  mseq (emit "\\ref") (mseq (emit ("\x7b" ++ c.text ++ "\x7d")) (emit "\n"))

def Bibitem.writeToM {σ ε : Type} (emit : Emit σ ε) (c : Bibitem) : EmitM σ ε :=
  mseq (emit "\\bibitem")
    (mseq (emit ("\x7b" ++ c.cite ++ "\x7d")) (mseq (emit c.text.display) (emit "\n")))

def Bibliographystyle.writeToM {σ ε : Type} (emit : Emit σ ε)
    (c : Bibliographystyle) : EmitM σ ε :=
  mseq (emit "\\bibliographystyle") (mseq (emit ("\x7b" ++ c.style ++ "\x7d")) (emit "\n"))

def Bibliography.writeToM {σ ε : Type} (emit : Emit σ ε) (c : Bibliography) : EmitM σ ε :=
  mseq (emit "\\bibliography") (mseq (emit ("\x7b" ++ c.file ++ "\x7d")) (emit "\n"))

def Cite.writeToM {σ ε : Type} (emit : Emit σ ε) (c : Cite) : EmitM σ ε :=
  mseq (emit "\\cite")
    (mseq (match c.subcit with
           | some value => emit ("[" ++ value.display ++ "]")
           | none => okM)
      (mseq (emit ("\x7b" ++ c.reference ++ "\x7d")) (emit "\n")))

def Framebox.writeToM {σ ε : Type} (emit : Emit σ ε) (c : Framebox) : EmitM σ ε :=
  mseq (emit "\\framebox")
    (mseq (optBracketM emit c.size)
      (mseq (optBracketM emit c.pos)
        (mseq (emit ("\x7b" ++ c.text.display ++ "\x7d")) (emit "\n"))))

/-- `Command::write_to` over an abstract sink. -/
def Command.writeToM {σ ε : Type} (emit : Emit σ ε) : Command → EmitM σ ε
  | .Label c => c.writeToM emit
  | .Ref c => c.writeToM emit
  | .Bibitem c => c.writeToM emit
  | .Bibliographystyle c => c.writeToM emit
  | .Bibliography c => c.writeToM emit
  | .Cite c => c.writeToM emit
  | .Framebox c => c.writeToM emit
  | .TableOfContents => emit "\\tableofcontents\n"
  | .TitlePage => emit "\\maketitle\n"
  | .ClearPage => emit "\\clearpage\n"
  | .BigSkip => emit "\\bigskip\n"
  | .NewPage => emit "\\newpage\n"
  | .Appendix => emit "\\appendix\n"

/-- `write_equation` over an abstract sink. -/
def writeEquationM {σ ε : Type} (emit : Emit σ ε) (item : AlignEquation)
    (numbered : Bool) : EmitM σ ε :=
  mseq (if !item.numbered && numbered then emit "\\nonumber\n" else okM)
    (mseq (emit (item.text ++ " "))
      (mseq (match item.label with
             | some label => emit ("\\label\x7b" ++ label ++ "\x7d ")
             | none => okM)
        (emit "\\\\\n")))

/-- The row loop of `Align::write_to`. -/
def alignItemsWriteTo {σ ε : Type} (emit : Emit σ ε) :
    List AlignEquation → Bool → EmitM σ ε
  | [], _ => okM
  | e :: es, numbered =>
    mseq (writeEquationM emit e numbered) (alignItemsWriteTo emit es numbered)

/-- `Align::write_to` over an abstract sink. -/
def Align.writeToM {σ ε : Type} (emit : Emit σ ε) (a : Align) : EmitM σ ε :=
  mseq (emit ("\\begin\x7balign" ++ (if a.numbered then "" else "*") ++ "\x7d\n"))
    (mseq (alignItemsWriteTo emit a.items a.numbered)
      (emit ("\\end\x7balign" ++ (if a.numbered then "" else "*") ++ "\x7d\n")))

/-- The heading writes of `visit_sectioning_element` over an abstract
sink. -/
def SectionBlock.headingWriteTo {σ ε : Type} (emit : Emit σ ε)
    (s : SectionBlock) : EmitM σ ε :=
  mseq (match s.numbered with
        | true =>
          mseq (emit ("\\" ++ s.sectioningName))
            (match s.toctitle with
             | some toctitle =>
               mseq (emit "[") (mseq (Text.writeToM emit toctitle) (emit "]\x7b"))
             | none => emit "\x7b")
        | false => emit ("\\" ++ s.sectioningName ++ "*\x7b"))
    (mseq (Text.writeToM emit s.name) (emit "\x7d\n"))

mutual

/-- `Element::write_to` over an abstract sink. -/
def Element.writeToM {σ ε : Type} (emit : Emit σ ε) : Element → EmitM σ ε
  | .Part s => SectionBlock.writeToM emit s
  | .Chapter s => SectionBlock.writeToM emit s
  | .Section s => SectionBlock.writeToM emit s
  | .Subsection s => SectionBlock.writeToM emit s
  | .Subsubsection s => SectionBlock.writeToM emit s
  | .Paragraph s => SectionBlock.writeToM emit s
  | .Subparagraph s => SectionBlock.writeToM emit s
  | .Text t => Text.writeToM emit t
  | .Container c => ContainerBlock.writeToM emit c
  | .Command c => Command.writeToM emit c
  | .Align a => Align.writeToM emit a
  | .Environment env => EnvironmentBlock.writeToM emit env
  | .UserDefined s => emit (s ++ "\n")
  | .List l => ListBlock.writeToM emit l
  | .Input s => emit ("\\input\x7b" ++ s ++ "\x7d\n")

/-- `visit_sectioning_element` over an abstract sink. -/
def SectionBlock.writeToM {σ ε : Type} (emit : Emit σ ε) : SectionBlock → EmitM σ ε
  | s@(.mk _ elements _ _ _) =>
    mseq (SectionBlock.headingWriteTo emit s) (elementsLineWriteTo emit elements)

/-- `Container::write_to` over an abstract sink. -/
def ContainerBlock.writeToM {σ ε : Type} (emit : Emit σ ε) : ContainerBlock → EmitM σ ε
  | .mk elements => elementsWriteTo emit elements

/-- `Environment::write_to` over an abstract sink: the mandatory-parameter
loop (`try_for_each`) is sequential emission with early exit, run only when
parameters exist, exactly as in the source. -/
def EnvironmentBlock.writeToM {σ ε : Type} (emit : Emit σ ε) :
    EnvironmentBlock → EmitM σ ε
  | .mk params optionalParams elements envingName _ =>
    mseq (emit ("\\begin\x7b" ++ envingName ++ "\x7d"))
      (mseq (if params.isEmpty then okM
             else foldEmit emit (params.map (fun item => "\x7b" ++ item ++ "\x7d")))
        (mseq (if optionalParams.isEmpty then okM
               else emit ("[" ++ String.intercalate "," optionalParams ++ "]"))
          (mseq (emit "\n")
            (mseq (elementsLineWriteTo emit elements)
              (emit ("\\end\x7b" ++ envingName ++ "\x7d\n"))))))

/-- `List::write_to` over an abstract sink. -/
def ListBlock.writeToM {σ ε : Type} (emit : Emit σ ε) : ListBlock → EmitM σ ε
  | .mk kind items =>
    mseq (emit ("\\begin\x7b" ++ kind.environment_name ++ "\x7d\n"))
      (mseq (itemsWriteTo emit items)
        (emit ("\\end\x7b" ++ kind.environment_name ++ "\x7d\n")))

/-- The item loop of `List::write_to` over an abstract sink. -/
def itemsWriteTo {σ ε : Type} (emit : Emit σ ε) : List ItemBlock → EmitM σ ε
  | [] => okM
  | .mk c :: rest =>
    mseq (emit "\\item ")
      (mseq (ContainerBlock.writeToM emit c)
        (mseq (emit "\n") (itemsWriteTo emit rest)))

/-- The plain element loop over an abstract sink. -/
def elementsWriteTo {σ ε : Type} (emit : Emit σ ε) : List Element → EmitM σ ε
  | [] => okM
  | e :: es => mseq (Element.writeToM emit e) (elementsWriteTo emit es)

/-- The element loop with one line break after each element. -/
def elementsLineWriteTo {σ ε : Type} (emit : Emit σ ε) : List Element → EmitM σ ε
  | [] => okM
  | e :: es =>
    mseq (Element.writeToM emit e) (mseq (emit "\n") (elementsLineWriteTo emit es))

end

/-- A concrete failing sink for the C9 witness: the state counts completed
writes, the first write succeeds and every later one fails. -/
def capSink : Emit Nat String :=
  fun _ n => if n < 1 then .ok (n + 1) else .error "sink full"

theorem mseq_assoc {σ ε : Type} (f g h : EmitM σ ε) :
    mseq (mseq f g) h = mseq f (mseq g h) := by
  funext st
  simp only [mseq]
  cases f st <;> simp

theorem mseq_okM {σ ε : Type} (f : EmitM σ ε) : mseq f okM = f := by
  funext st
  simp only [mseq, okM]
  cases f st <;> simp

theorem okM_mseq {σ ε : Type} (f : EmitM σ ε) : mseq okM f = f := by
  funext st
  simp only [mseq, okM]

theorem foldEmit_nil {σ ε : Type} (emit : Emit σ ε) : foldEmit emit [] = okM := by
  funext st
  simp [foldEmit, okM]

theorem foldEmit_cons {σ ε : Type} (emit : Emit σ ε) (p : String) (ps : List String) :
    foldEmit emit (p :: ps) = mseq (emit p) (foldEmit emit ps) := by
  funext st
  simp only [foldEmit, mseq]

theorem foldEmit_singleton {σ ε : Type} (emit : Emit σ ε) (p : String) :
    foldEmit emit [p] = emit p := by
  rw [foldEmit_cons, foldEmit_nil, mseq_okM]

theorem foldEmit_append {σ ε : Type} (emit : Emit σ ε) (xs ys : List String) :
    foldEmit emit (xs ++ ys) = mseq (foldEmit emit xs) (foldEmit emit ys) := by
  induction xs with
  | nil => rw [List.nil_append, foldEmit_nil, okM_mseq]
  | cons p ps ih => rw [List.cons_append, foldEmit_cons, foldEmit_cons, ih, mseq_assoc]

/-- If sequentially emitting a list of strings fails, the list splits into a
prefix that was emitted successfully, the single failing write (whose error
is the reported one), and an unattempted suffix. -/
theorem foldEmit_error_split {σ ε : Type} (emit : Emit σ ε) (ps : List String)
    (st : σ) (e : ε) (h : foldEmit emit ps st = .error e) :
    ∃ pre p suf st', ps = pre ++ p :: suf ∧
      foldEmit emit pre st = .ok st' ∧ emit p st' = .error e ∧
      foldEmit emit (pre ++ [p]) st = .error e := by
  induction ps generalizing st with
  | nil => simp [foldEmit] at h
  | cons q qs ih =>
    rw [foldEmit] at h
    cases hq : emit q st with
    | error e' =>
      rw [hq] at h
      cases h
      refine ⟨[], q, qs, st, rfl, rfl, hq, ?_⟩
      simp [foldEmit, hq]
    | ok st1 =>
      rw [hq] at h
      simp only at h
      obtain ⟨pre, p, suf, st', h1, h2, h3, h4⟩ := ih st1 h
      refine ⟨q :: pre, p, suf, st', by simp [h1], ?_, h3, ?_⟩
      · simp [foldEmit, hq, h2]
      · simp only [List.cons_append, foldEmit, hq]
        exact h4

theorem strJoin_append (xs ys : List String) :
    strJoin (xs ++ ys) = strJoin xs ++ strJoin ys := by
  induction xs with
  | nil => simp [strJoin]
  | cons s ss ih => simp [strJoin, ih, String.append_assoc]

theorem textElement_render_eq_display (te : TextElement) :
    te.render = te.display := by
  cases te <;> simp [TextElement.render, TextElement.pieces, TextElement.display, strJoin]

theorem text_render_eq_display (t : Text) : t.render = t.display := by
  obtain ⟨els⟩ := t
  simp only [Text.render, Text.pieces, Text.display]
  induction els with
  | nil => rfl
  | cons e es ih =>
    simp only [List.flatMap_cons, List.map_cons, strJoin_append, strJoin, ih]
    rw [← textElement_render_eq_display]
    rfl

theorem strJoin_elementsPieces (es : List Element) :
    strJoin (elementsPieces es) = strJoin (es.map Element.render) := by
  induction es with
  | nil => rfl
  | cons e es ih =>
    simp only [elementsPieces, List.map_cons, strJoin, strJoin_append, ih, Element.render]

theorem strJoin_elementsLinePieces (es : List Element) :
    strJoin (elementsLinePieces es) =
      strJoin (es.map (fun e => Element.render e ++ "\n")) := by
  induction es with
  | nil => rfl
  | cons e es ih =>
    simp [elementsLinePieces, List.map_cons, strJoin, strJoin_append, ih,
      Element.render, String.append_assoc]

/-! ## Helper lemmas shared by the claims -/

theorem strJoin_flatMap {α : Type} (f : α → List String) (xs : List α) :
    strJoin (xs.flatMap f) = strJoin (xs.map (fun x => strJoin (f x))) := by
  induction xs with
  | nil => rfl
  | cons x xs ih => simp [List.flatMap_cons, strJoin_append, strJoin, ih]

theorem strJoin_itemsPieces (items : List ItemBlock) :
    strJoin (itemsPieces items) =
      strJoin (items.map (fun it => "\\item " ++ it.container.render ++ "\n")) := by
  induction items with
  | nil => rfl
  | cons it rest ih =>
    obtain ⟨c⟩ := it
    simp [itemsPieces, strJoin, strJoin_append, ih, ItemBlock.container,
      ContainerBlock.render, String.append_assoc]

/-! ## Claims -/

/-- C3 counterexample: the claim says the first brace group of a rendered
`Link` is the target and the second the description; at the concrete pair
`("desc", "target")` (description first, as the pair is declared) the code
emits the description in the first group and the target in the second. -/
theorem claim3_counterexample :
    TextElement.render (.Link ("desc", "target")) = "\\href\x7bdesc\x7d\x7btarget\x7d" ∧
    TextElement.render (.Link ("desc", "target")) ≠ "\\href\x7btarget\x7d\x7bdesc\x7d" := by
  constructor
  · rfl
  · decide

/-- C3 (amended): for every `TextElement::Link` carrying the pair
`(description, target)`, rendering emits a two-group hyperlink command whose
FIRST brace group is the description and whose SECOND brace group is the
target (src/text.rs line 135 writes `s.0` then `s.1`). -/
theorem claim3_link_groups (description target : String) :
    TextElement.render (TextElement.Link (description, target)) =
      "\\href\x7b" ++ description ++ "\x7d\x7b" ++ target ++ "\x7d" := by
  simp [TextElement.render, TextElement.pieces, strJoin]

/-- C4 counterexample: the claim says the formatting units follow the
struct's declared field order; `Framebox` declares `text, size, pos` but at
a concrete framed box the code emits `[size][pos]{text}`, not
`{text}[size][pos]`. -/
theorem claim4_counterexample :
    Framebox.render ⟨Text.fromStr "t", some "30pc", some "l"⟩ =
      "\\framebox[30pc][l]\x7bt\x7d\n" ∧
    Framebox.render ⟨Text.fromStr "t", some "30pc", some "l"⟩ ≠
      "\\framebox\x7bt\x7d[30pc][l]\n" := by
  constructor
  · rfl
  · decide

/-- C4 (amended): every parameterized command emits `\keyword` then one
formatting unit per field in the order fixed by its formatter specification
(src/commands.rs lines 149-156) - which agrees with struct declaration
order for `Label`, `Ref`, `Bibliographystyle` and `Bibliography`, but is
`{cite}text` for `Bibitem`, `[subcit]{reference}` for `Cite` and
`[size][pos]{text}` for `Framebox` - terminated by a line break. -/
theorem claim4_command_units :
    (∀ c : Label, c.render = "\\label\x7b" ++ c.label ++ "\x7d\n") ∧
    (∀ c : Ref, c.render = "\\ref\x7b" ++ c.text ++ "\x7d\n") ∧
    (∀ c : Bibitem, c.render = "\\bibitem\x7b" ++ c.cite ++ "\x7d" ++ c.text.display ++ "\n") ∧
    (∀ c : Bibliographystyle, c.render = "\\bibliographystyle\x7b" ++ c.style ++ "\x7d\n") ∧
    (∀ c : Bibliography, c.render = "\\bibliography\x7b" ++ c.file ++ "\x7d\n") ∧
    (∀ c : Cite, c.render =
      "\\cite"
      ++ (match c.subcit with
          | some t => "[" ++ t.display ++ "]"
          | none => "")
      ++ "\x7b" ++ c.reference ++ "\x7d\n") ∧
    (∀ c : Framebox, c.render =
      "\\framebox"
      ++ (match c.size with
          | some v => "[" ++ v ++ "]"
          | none => "")
      ++ (match c.pos with
          | some v => "[" ++ v ++ "]"
          | none => "")
      ++ "\x7b" ++ c.text.display ++ "\x7d\n") := by
  refine ⟨fun c => ?_, fun c => ?_, fun c => ?_, fun c => ?_, fun c => ?_, fun c => ?_, fun c => ?_⟩
  · simp only [Label.render, Label.pieces, strJoin, strJoin_append, String.append_assoc]
    rfl
  · simp only [Ref.render, Ref.pieces, strJoin, strJoin_append, String.append_assoc]
    rfl
  · simp only [Bibitem.render, Bibitem.pieces, strJoin, strJoin_append, String.append_assoc]
    rfl
  · simp only [Bibliographystyle.render, Bibliographystyle.pieces, strJoin, strJoin_append,
      String.append_assoc]
    rfl
  · simp only [Bibliography.render, Bibliography.pieces, strJoin, strJoin_append,
      String.append_assoc]
    rfl
  · obtain ⟨r, subcit⟩ := c
    cases subcit <;>
      simp only [Cite.render, Cite.pieces, strJoin, strJoin_append, String.append_assoc] <;>
      rfl
  · obtain ⟨t, size, pos⟩ := c
    cases size <;> cases pos <;>
      simp only [Framebox.render, Framebox.pieces, optBracketPieces, strJoin, strJoin_append,
        String.append_assoc] <;>
      rfl

/-- C10: the rendering of an `Align` never reads the `Align`'s own `label`
field (src/equations.rs lines 255-275 use only `numbered` and the rows), so
the output equals that of the same `Align` with `label := none`, and an
`Align` built by `with_label` renders like a fresh one. -/
theorem claim10_align_label_ignored (a : Align) :
    Align.render a = Align.render ⟨a.items, none, a.numbered⟩ ∧
    (∀ label, Align.render (Align.with_label label) = Align.render Align.new) :=
  ⟨rfl, fun _ => rfl⟩

/-- C1: a `Document` of class other than `Part` renders as the
`\documentclass` line with the comma-joined argument list and the class
name, the preamble's rendering, the document-begin line, the children in
push order, and the document-end line; a `Document` of class `Part` renders
as the bare concatenation of its children. -/
theorem claim1_document_structure (d : Document) :
    (d.docClass ≠ DocumentClass.Part →
      d.render =
        "\\documentclass[" ++ String.intercalate "," d.arguments ++ "]\x7b"
          ++ d.docClass.display ++ "\x7d\n"
        ++ d.preamble.render
        ++ "\\begin\x7bdocument\x7d\n"
        ++ strJoin (d.elements.map Element.render)
        ++ "\\end\x7bdocument\x7d\n") ∧
    (d.docClass = DocumentClass.Part →
      d.render = strJoin (d.elements.map Element.render)) := by
  obtain ⟨cls, pre, args, els⟩ := d
  constructor
  · intro h
    cases cls
    case Part => exact absurd rfl h
    all_goals
      simp only [Document.render, Document.pieces, List.append_eq, List.nil_append,
        List.cons_append, strJoin_append, strJoin, strJoin_elementsPieces,
        Preamble.render, String.append_assoc, String.append_empty]
  · intro h
    cases h
    simp only [Document.render, Document.pieces, strJoin_elementsPieces]

/-- C1 witness: an empty article and a one-element partial document. -/
theorem claim1_witness :
    Document.render ⟨DocumentClass.Article, ⟨none, none, []⟩, [], []⟩ =
      "\\documentclass[]\x7barticle\x7d\n\\begin\x7bdocument\x7d\n\\end\x7bdocument\x7d\n" ∧
    Document.render ⟨DocumentClass.Part, ⟨none, none, []⟩, [],
        [Element.UserDefined "raw"]⟩ = "raw\n" := by
  constructor
  · rw [(claim1_document_structure ⟨DocumentClass.Article, ⟨none, none, []⟩, [], []⟩).1
      (by simp)]
    rfl
  · rw [(claim1_document_structure ⟨DocumentClass.Part, ⟨none, none, []⟩, [],
      [Element.UserDefined "raw"]⟩).2 rfl]
    simp only [List.map_cons, List.map_nil, Element.render, Element.pieces]
    rfl

/-- C2: a sectioning node with `numbered = false` renders the starred
keyword form and never a toc-title bracket, even when a toc title is set;
with `numbered = true` it renders the keyword, the bracketed toc title
exactly when one is set, then the name in one brace group. -/
theorem claim2_section_star (s : SectionBlock) :
    (s.numbered = false →
      s.render = "\\" ++ s.sectioningName ++ "*\x7b" ++ s.name.render ++ "\x7d\n"
        ++ strJoin (s.elements.map (fun e => Element.render e ++ "\n"))) ∧
    (s.numbered = true →
      s.render = "\\" ++ s.sectioningName
        ++ (match s.toctitle with
            | some toctitle => "[" ++ toctitle.render ++ "]"
            | none => "")
        ++ "\x7b" ++ s.name.render ++ "\x7d\n"
        ++ strJoin (s.elements.map (fun e => Element.render e ++ "\n"))) := by
  obtain ⟨name, els, sn, tt, nb⟩ := s
  constructor
  · intro h
    cases h
    simp only [SectionBlock.render, SectionBlock.pieces, SectionBlock.headingPieces,
      SectionBlock.numbered, SectionBlock.sectioningName, SectionBlock.toctitle,
      SectionBlock.name, SectionBlock.elements, Text.render, List.append_eq,
      List.nil_append, List.cons_append, strJoin_append, strJoin,
      strJoin_elementsLinePieces, String.append_assoc]
    rfl
  · intro h
    cases h
    cases tt <;>
      (simp only [SectionBlock.render, SectionBlock.pieces, SectionBlock.headingPieces,
        SectionBlock.numbered, SectionBlock.sectioningName, SectionBlock.toctitle,
        SectionBlock.name, SectionBlock.elements, Text.render, List.append_eq,
        List.nil_append, List.cons_append, strJoin_append, strJoin,
        strJoin_elementsLinePieces, String.append_assoc, String.empty_append]
       try rfl)

/-- C2 witness: an unnumbered section with a toc title set renders starred
with no bracket; the numbered twin renders the bracketed toc title. -/
theorem claim2_witness :
    SectionBlock.render
        (.mk (Text.fromStr "N") [] "section" (some (Text.fromStr "T")) false) =
      "\\section*\x7bN\x7d\n" ∧
    SectionBlock.render
        (.mk (Text.fromStr "N") [] "section" (some (Text.fromStr "T")) true) =
      "\\section[T]\x7bN\x7d\n" := by
  constructor
  · rw [(claim2_section_star
      (.mk (Text.fromStr "N") [] "section" (some (Text.fromStr "T")) false)).1 rfl]
    rfl
  · rw [(claim2_section_star
      (.mk (Text.fromStr "N") [] "section" (some (Text.fromStr "T")) true)).2 rfl]
    rfl

/-- C5 counterexample: the claim says every child is followed by a blank
line; at a section with two plain-text children the code emits exactly one
newline after each child - the output has no blank (empty) line, unlike the
blank-line-separated form. -/
theorem claim5_counterexample :
    SectionBlock.render
        (.mk (Text.fromStr "S")
          [Element.Text (Text.fromStr "a"), Element.Text (Text.fromStr "b")]
          "section" none true) =
      "\\section\x7bS\x7d\na\nb\n" ∧
    ("\\section\x7bS\x7d\na\nb\n" : String) ≠ "\\section\x7bS\x7d\na\n\nb\n\n" := by
  constructor
  · simp only [SectionBlock.render, SectionBlock.pieces, SectionBlock.headingPieces,
      SectionBlock.numbered, SectionBlock.sectioningName, SectionBlock.toctitle,
      SectionBlock.name, SectionBlock.elements, elementsLinePieces, Element.pieces,
      Text.fromStr, Text.pieces, List.flatMap_cons, List.flatMap_nil, TextElement.pieces,
      List.append_eq, strJoin_append, strJoin, List.append_nil, List.nil_append,
      List.cons_append, String.append_assoc]
    rfl
  · decide

/-- C5 (amended): a sectioning node renders its heading followed, for each
child in order, by the child's rendering plus one single line break (the
lone `writeln!(writer)` of src/section.rs line 57) - a blank line results
only when the child's own rendering already ends in a line break; an empty
sectioning node renders only its heading. -/
theorem claim5_section_separator (s : SectionBlock) :
    s.render = s.headingRender
      ++ strJoin (s.elements.map (fun e => Element.render e ++ "\n")) ∧
    (s.elements = [] → s.render = s.headingRender) := by
  obtain ⟨name, els, sn, tt, nb⟩ := s
  constructor
  · simp only [SectionBlock.render, SectionBlock.pieces, SectionBlock.headingRender,
      SectionBlock.elements, List.append_eq, strJoin_append, strJoin_elementsLinePieces]
  · intro h
    simp only [SectionBlock.elements] at h
    cases h
    simp [SectionBlock.render, SectionBlock.pieces, SectionBlock.headingRender,
      elementsLinePieces, strJoin_append, strJoin]

/-- C5 witness: a blank section emits only its heading line (the repo's own
`render_blank_section` test). -/
theorem claim5_witness :
    SectionBlock.render (SectionBlock.new "section" "First Section") =
      "\\section\x7bFirst Section\x7d\n" := by
  rw [(claim5_section_separator (SectionBlock.new "section" "First Section")).2 rfl]
  rfl

/-- C6: a `Preamble` renders its contents, then one blank line exactly when
the contents are non-empty and a title or author is set, then the title
line only when the title is set, then the author line only when the author
is set; a preamble with only a title renders the single title line with no
leading blank line. -/
theorem claim6_preamble_blank (p : Preamble) :
    p.render =
      strJoin (p.contents.map PreambleElement.render)
      ++ (if !p.contents.isEmpty && (p.title.isSome || p.author.isSome)
          then "\n" else "")
      ++ (match p.title with
          | some title => "\\title\x7b" ++ title ++ "\x7d\n"
          | none => "")
      ++ (match p.author with
          | some author => "\\author\x7b" ++ author ++ "\x7d\n"
          | none => "") ∧
    (∀ title, p.contents = [] → p.author = none → p.title = some title →
      p.render = "\\title\x7b" ++ title ++ "\x7d\n") := by
  obtain ⟨auth, tit, cont⟩ := p
  constructor
  · simp only [Preamble.render, Preamble.pieces, strJoin_append, strJoin_flatMap,
      PreambleElement.render, String.append_assoc]
    cases tit <;> cases auth <;> cases hc : cont.isEmpty <;>
      simp [hc, strJoin, String.append_assoc] <;> rfl
  · intro title hc ha ht
    cases hc
    cases ha
    cases ht
    simp [Preamble.render, Preamble.pieces, strJoin, strJoin_append]

/-- C6 witness: only a title set, no contents, no author. -/
theorem claim6_witness :
    Preamble.render ⟨none, some "My Fancy Document", []⟩ =
      "\\title\x7bMy Fancy Document\x7d\n" :=
  (claim6_preamble_blank ⟨none, some "My Fancy Document", []⟩).2
    "My Fancy Document" rfl rfl rfl

/-- C7: an `Environment` renders the begin marker, one brace group per
mandatory parameter in declared order with no separators, then - only when
optional parameters exist - one bracket group with the comma-joined
optional parameters, a line break, each child followed by a line break, and
the end line; the mandatory groups always precede the optional group. -/
theorem claim7_environment_params (env : EnvironmentBlock) :
    env.render =
      "\\begin\x7b" ++ env.envingName ++ "\x7d"
      ++ strJoin (env.params.map (fun item => "\x7b" ++ item ++ "\x7d"))
      ++ (if env.optionalParams.isEmpty then ""
          else "[" ++ String.intercalate "," env.optionalParams ++ "]")
      ++ "\n"
      ++ strJoin (env.elements.map (fun e => Element.render e ++ "\n"))
      ++ "\\end\x7b" ++ env.envingName ++ "\x7d\n" := by
  obtain ⟨ps, ops, els, nm, nb⟩ := env
  simp only [EnvironmentBlock.render, EnvironmentBlock.pieces,
    EnvironmentBlock.envingName, EnvironmentBlock.params,
    EnvironmentBlock.optionalParams, EnvironmentBlock.elements, List.append_eq,
    List.nil_append, List.cons_append, strJoin_append, strJoin_elementsLinePieces,
    String.append_assoc]
  cases hop : ops.isEmpty <;>
    simp [hop, strJoin, strJoin_append, strJoin_elementsLinePieces,
      String.append_assoc]

/-- C8: a `List` renders the begin line for its kind's environment, then
one `\item ` marker followed by the item's container contents and a line
break per item, then the end line; the three-item itemize example renders
one `\item` line per entry (the repo's `render_itemize_list_simple`
test). -/
theorem claim8_list_render :
    (∀ l : ListBlock, l.render =
      "\\begin\x7b" ++ l.kind.environment_name ++ "\x7d\n"
      ++ strJoin (l.items.map (fun it => "\\item " ++ it.container.render ++ "\n"))
      ++ "\\end\x7b" ++ l.kind.environment_name ++ "\x7d\n") ∧
    ListBlock.render
        ((((ListBlock.new ListKind.Itemize).push_text "Apple").push_text
            "Orange").push_text "Cherry") =
      "\\begin\x7bitemize\x7d\n\\item Apple\n\\item Orange\n\\item Cherry\n\\end\x7bitemize\x7d\n" := by
  constructor
  · intro l
    obtain ⟨kind, items⟩ := l
    simp only [ListBlock.render, ListBlock.pieces, ListBlock.kind, ListBlock.items,
      List.append_eq, List.nil_append, List.cons_append, strJoin_append,
      strJoin_itemsPieces, strJoin, String.append_assoc, String.append_empty]
  · simp only [ListBlock.render, ListBlock.new, ListBlock.push_text, ListBlock.kind,
      ListBlock.items, List.append_eq, List.nil_append, List.cons_append, List.append_nil,
      ListBlock.pieces, ListKind.environment_name, itemsPieces, ContainerBlock.pieces,
      elementsPieces, Element.pieces, Text.fromStr, Text.pieces, List.flatMap_cons,
      List.flatMap_nil, TextElement.pieces, strJoin_append, strJoin, String.append_assoc]
    rfl

/-! ## Equivalence of the monadic layer with the pieces layer -/

theorem textElement_writeToM_eq {σ ε : Type} (emit : Emit σ ε) (te : TextElement) :
    TextElement.writeToM emit te = foldEmit emit te.pieces := by
  cases te <;> simp [TextElement.writeToM, TextElement.pieces, foldEmit_singleton]

theorem textListWriteTo_eq {σ ε : Type} (emit : Emit σ ε) (ts : List TextElement) :
    textListWriteTo emit ts = foldEmit emit (ts.flatMap TextElement.pieces) := by
  induction ts with
  | nil => simp [textListWriteTo, foldEmit_nil]
  | cons t ts ih =>
    simp [textListWriteTo, textElement_writeToM_eq, ih, List.flatMap_cons, foldEmit_append]

theorem text_writeToM_eq {σ ε : Type} (emit : Emit σ ε) (t : Text) :
    Text.writeToM emit t = foldEmit emit t.pieces := by
  obtain ⟨els⟩ := t
  simp [Text.writeToM, Text.pieces, textListWriteTo_eq]

theorem optBracketM_eq {σ ε : Type} (emit : Emit σ ε) (o : Option String) :
    optBracketM emit o = foldEmit emit (optBracketPieces o) := by
  cases o <;> simp [optBracketM, optBracketPieces, foldEmit_singleton, foldEmit_nil]

theorem command_writeToM_eq {σ ε : Type} (emit : Emit σ ε) (c : Command) :
    Command.writeToM emit c = foldEmit emit c.pieces := by
  cases c with
  | Label c =>
    simp [Command.writeToM, Command.pieces, Label.writeToM, Label.pieces,
      foldEmit_append, foldEmit_cons, foldEmit_nil, foldEmit_singleton, mseq_assoc,
      mseq_okM, okM_mseq]
  | Ref c =>
    simp [Command.writeToM, Command.pieces, Ref.writeToM, Ref.pieces,
      foldEmit_append, foldEmit_cons, foldEmit_nil, foldEmit_singleton, mseq_assoc,
      mseq_okM, okM_mseq]
  | Bibitem c =>
    simp [Command.writeToM, Command.pieces, Bibitem.writeToM, Bibitem.pieces,
      foldEmit_append, foldEmit_cons, foldEmit_nil, foldEmit_singleton, mseq_assoc,
      mseq_okM, okM_mseq]
  | Bibliographystyle c =>
    simp [Command.writeToM, Command.pieces, Bibliographystyle.writeToM,
      Bibliographystyle.pieces, foldEmit_append, foldEmit_cons, foldEmit_nil,
      foldEmit_singleton, mseq_assoc, mseq_okM, okM_mseq]
  | Bibliography c =>
    simp [Command.writeToM, Command.pieces, Bibliography.writeToM, Bibliography.pieces,
      foldEmit_append, foldEmit_cons, foldEmit_nil, foldEmit_singleton, mseq_assoc,
      mseq_okM, okM_mseq]
  | Cite c =>
    obtain ⟨r, subcit⟩ := c
    cases subcit <;>
      simp [Command.writeToM, Command.pieces, Cite.writeToM, Cite.pieces,
        foldEmit_append, foldEmit_cons, foldEmit_nil, foldEmit_singleton, mseq_assoc,
        mseq_okM, okM_mseq]
  | Framebox c =>
    simp [Command.writeToM, Command.pieces, Framebox.writeToM, Framebox.pieces,
      optBracketM_eq, foldEmit_append, foldEmit_cons, foldEmit_nil, foldEmit_singleton,
      mseq_assoc, mseq_okM, okM_mseq]
  | _ =>
    simp [Command.writeToM, Command.pieces, foldEmit_singleton]

theorem writeEquationM_eq {σ ε : Type} (emit : Emit σ ε) (item : AlignEquation)
    (numbered : Bool) :
    writeEquationM emit item numbered = foldEmit emit (writeEquationPieces item numbered) := by
  obtain ⟨text, label, inumbered⟩ := item
  cases label <;> cases inumbered <;> cases numbered <;>
    simp [writeEquationM, writeEquationPieces, foldEmit_append, foldEmit_cons,
      foldEmit_nil, foldEmit_singleton, mseq_assoc, mseq_okM, okM_mseq]

theorem alignItemsWriteTo_eq {σ ε : Type} (emit : Emit σ ε) (items : List AlignEquation)
    (numbered : Bool) :
    alignItemsWriteTo emit items numbered =
      foldEmit emit (items.flatMap (fun e => writeEquationPieces e numbered)) := by
  induction items with
  | nil => simp [alignItemsWriteTo, foldEmit_nil]
  | cons e es ih =>
    simp [alignItemsWriteTo, writeEquationM_eq, ih, List.flatMap_cons, foldEmit_append]

theorem align_writeToM_eq {σ ε : Type} (emit : Emit σ ε) (a : Align) :
    Align.writeToM emit a = foldEmit emit a.pieces := by
  obtain ⟨items, label, numbered⟩ := a
  simp [Align.writeToM, Align.pieces, alignItemsWriteTo_eq, foldEmit_append,
    foldEmit_cons, foldEmit_nil, foldEmit_singleton, mseq_assoc, mseq_okM, okM_mseq]

theorem sectionHeadingWriteTo_eq {σ ε : Type} (emit : Emit σ ε) (s : SectionBlock) :
    SectionBlock.headingWriteTo emit s = foldEmit emit s.headingPieces := by
  obtain ⟨name, els, sn, tt, nb⟩ := s
  cases nb <;> cases tt <;>
    simp [SectionBlock.headingWriteTo, SectionBlock.headingPieces, SectionBlock.numbered,
      SectionBlock.sectioningName, SectionBlock.toctitle, SectionBlock.name,
      text_writeToM_eq, foldEmit_append, foldEmit_cons, foldEmit_nil, foldEmit_singleton,
      mseq_assoc, mseq_okM, okM_mseq]

theorem elementsWriteTo_eq {σ ε : Type} (emit : Emit σ ε) (es : List Element)
    (H : ∀ e ∈ es, Element.writeToM emit e = foldEmit emit e.pieces) :
    elementsWriteTo emit es = foldEmit emit (elementsPieces es) := by
  induction es with
  | nil => simp [elementsWriteTo, elementsPieces, foldEmit_nil]
  | cons e es ih =>
    simp only [elementsWriteTo, elementsPieces]
    rw [H e (by simp), ih (fun e' he' => H e' (by simp [he']))]
    simp [foldEmit_append]

theorem elementsLineWriteTo_eq {σ ε : Type} (emit : Emit σ ε) (es : List Element)
    (H : ∀ e ∈ es, Element.writeToM emit e = foldEmit emit e.pieces) :
    elementsLineWriteTo emit es = foldEmit emit (elementsLinePieces es) := by
  induction es with
  | nil => simp [elementsLineWriteTo, elementsLinePieces, foldEmit_nil]
  | cons e es ih =>
    simp only [elementsLineWriteTo, elementsLinePieces]
    rw [H e (by simp), ih (fun e' he' => H e' (by simp [he']))]
    simp [foldEmit_append, foldEmit_cons, foldEmit_singleton, mseq_assoc]

theorem containerBlock_writeToM_eq {σ ε : Type} (emit : Emit σ ε) (c : ContainerBlock)
    (H : ∀ e ∈ c.elements, Element.writeToM emit e = foldEmit emit e.pieces) :
    ContainerBlock.writeToM emit c = foldEmit emit c.pieces := by
  obtain ⟨els⟩ := c
  simp only [ContainerBlock.elements] at H
  simp only [ContainerBlock.writeToM, ContainerBlock.pieces]
  exact elementsWriteTo_eq emit els H

theorem itemsWriteTo_eq {σ ε : Type} (emit : Emit σ ε) (items : List ItemBlock)
    (H : ∀ it ∈ items, ∀ e ∈ it.container.elements,
      Element.writeToM emit e = foldEmit emit e.pieces) :
    itemsWriteTo emit items = foldEmit emit (itemsPieces items) := by
  induction items with
  | nil => simp [itemsWriteTo, itemsPieces, foldEmit_nil]
  | cons it rest ih =>
    obtain ⟨c⟩ := it
    simp only [itemsWriteTo, itemsPieces]
    rw [containerBlock_writeToM_eq emit c
        (fun e he => H ⟨c⟩ (by simp) e (by simpa [ItemBlock.container] using he)),
      ih (fun it' h' e he => H it' (by simp [h']) e he)]
    simp [foldEmit_append, foldEmit_cons, foldEmit_singleton, mseq_assoc]

theorem writeToM_eq_aux {σ ε : Type} (emit : Emit σ ε) :
    ∀ (n : Nat) (el : Element), sizeOf el ≤ n →
      Element.writeToM emit el = foldEmit emit el.pieces := by
  intro n
  induction n using Nat.strong_induction_on with
  | _ n ih =>
    intro el hle
    have child : ∀ (es : List Element), sizeOf es < sizeOf el →
        ∀ e ∈ es, Element.writeToM emit e = foldEmit emit e.pieces := by
      intro es hes e he
      have h1 : sizeOf e < sizeOf es := List.sizeOf_lt_of_mem he
      exact ih (sizeOf e) (by omega) e le_rfl
    match el with
    | .Text t =>
      simp only [Element.writeToM, Element.pieces]
      exact text_writeToM_eq emit t
    | .Command c =>
      simp only [Element.writeToM, Element.pieces]
      exact command_writeToM_eq emit c
    | .Align a =>
      simp only [Element.writeToM, Element.pieces]
      exact align_writeToM_eq emit a
    | .UserDefined s =>
      simp [Element.writeToM, Element.pieces, foldEmit_singleton]
    | .Input s =>
      simp [Element.writeToM, Element.pieces, foldEmit_singleton]
    | .Part s | .Chapter s | .Section s | .Subsection s | .Subsubsection s
    | .Paragraph s | .Subparagraph s =>
      obtain ⟨name, elements, sn, tt, nb⟩ := s
      have hch := child elements (by simp; omega)
      simp only [Element.writeToM, Element.pieces, SectionBlock.writeToM,
        SectionBlock.pieces]
      rw [sectionHeadingWriteTo_eq, elementsLineWriteTo_eq emit elements hch,
        foldEmit_append]
    | .Container c =>
      obtain ⟨elements⟩ := c
      have hch := child elements (by simp; omega)
      simp only [Element.writeToM, Element.pieces]
      exact containerBlock_writeToM_eq emit ⟨elements⟩
        (by simpa [ContainerBlock.elements] using hch)
    | .Environment env =>
      obtain ⟨params, optionalParams, elements, envingName, nb⟩ := env
      have hch := child elements (by simp; omega)
      simp only [Element.writeToM, Element.pieces, EnvironmentBlock.writeToM,
        EnvironmentBlock.pieces]
      rw [elementsLineWriteTo_eq emit elements hch]
      cases hp : params.isEmpty <;> cases hop : optionalParams.isEmpty <;>
        simp_all [List.isEmpty_iff, foldEmit_append, foldEmit_cons, foldEmit_nil,
          foldEmit_singleton, mseq_assoc, mseq_okM, okM_mseq]
    | .List l =>
      obtain ⟨kind, items⟩ := l
      have hit : ∀ it ∈ items, ∀ e ∈ it.container.elements,
          Element.writeToM emit e = foldEmit emit e.pieces := by
        intro it hmem e he
        obtain ⟨c⟩ := it
        obtain ⟨cels⟩ := c
        simp only [ItemBlock.container, ContainerBlock.elements] at he
        have h1 : sizeOf e < sizeOf cels := List.sizeOf_lt_of_mem he
        have h2 : sizeOf (ItemBlock.mk (ContainerBlock.mk cels)) < sizeOf items :=
          List.sizeOf_lt_of_mem hmem
        have h3 : sizeOf items < sizeOf (Element.List (ListBlock.mk kind items)) := by
          simp; omega
        simp only [ItemBlock.mk.sizeOf_spec, ContainerBlock.mk.sizeOf_spec] at h2
        exact ih (sizeOf e) (by omega) e le_rfl
      simp only [Element.writeToM, Element.pieces, ListBlock.writeToM, ListBlock.pieces]
      rw [itemsWriteTo_eq emit items hit]
      simp [foldEmit_append, foldEmit_cons, foldEmit_nil, foldEmit_singleton, mseq_assoc,
        mseq_okM, okM_mseq]

/-- The monadic traversal of an element equals emitting its pieces in order
with early abort, for every sink. -/
theorem element_writeToM_eq {σ ε : Type} (emit : Emit σ ε) (el : Element) :
    Element.writeToM emit el = foldEmit emit el.pieces :=
  writeToM_eq_aux emit (sizeOf el) el le_rfl

/-- C9: if the sink fails during `write_to` of any element, the traversal
stops at the failing write: the element's write sequence splits into a
successfully emitted prefix, the single failing write - whose error is
returned to the caller unchanged - and a suffix that is never attempted
(running the prefix plus the failing write alone already produces the very
same result); in particular every error `write_to` returns is one the sink
produced, and rendering itself never rejects any field value. -/
theorem claim9_error_propagation {σ ε : Type} (emit : Emit σ ε) (el : Element)
    (st : σ) (e : ε) (hfail : Element.writeToM emit el st = .error e) :
    ∃ pre p suf st', el.pieces = pre ++ p :: suf ∧
      foldEmit emit pre st = .ok st' ∧
      emit p st' = .error e ∧
      foldEmit emit (pre ++ [p]) st = .error e := by
  rw [element_writeToM_eq] at hfail
  exact foldEmit_error_split emit el.pieces st e hfail

/-- C9 witness: an empty itemize list against a sink that fails on its
second write. -/
theorem claim9_witness :
    ∃ pre p suf st',
      Element.pieces (Element.List (ListBlock.mk ListKind.Itemize [])) =
        pre ++ p :: suf ∧
      foldEmit capSink pre 0 = .ok st' ∧
      capSink p st' = .error "sink full" ∧
      foldEmit capSink (pre ++ [p]) 0 = .error "sink full" :=
  claim9_error_propagation capSink (Element.List (ListBlock.mk ListKind.Itemize []))
    0 "sink full"
    (by simp [Element.writeToM, ListBlock.writeToM, itemsWriteTo, mseq, okM, capSink,
      ListKind.environment_name])


end LatexRs
